import Mathlib

/-!
Verification development for the sorcery-desktop repository.

Rust strings (`&str` / `String`) are modelled as `List Char`; where the source
indexes or measures strings in bytes, the model computes UTF-8 byte lengths
from `Char.utf8Size`.  A Rust panic is modelled as `none` in an
`Option`-valued result; `Err` values are modelled with `Except`.
All machine integers are modelled as `Nat` with explicit range checks at the
points where the source parses bounded integers (`usize`, `u32`).
-/

deriving instance DecidableEq for Except

/-- Shorthand: the character list of a string literal. -/
def lit (s : String) : List Char := s.toList

/-- UTF-8 byte length of a Rust string, as returned by `str::len()`. -/
def byteLen (s : List Char) : Nat := (s.map Char.utf8Size).sum

/-- `needle` is a leading subsequence of `hay` (Rust `str::starts_with`). -/
def startsWithSeq (needle hay : List Char) : Bool := List.isPrefixOf needle hay

/-- `needle` is a trailing subsequence of `hay` (Rust `str::ends_with`). -/
def endsWithSeq (needle hay : List Char) : Bool := List.isSuffixOf needle hay

/-- Rust `str::contains` for a literal substring pattern. -/
def containsSeq (needle : List Char) : List Char → Bool
  | [] => needle.isEmpty
  | c :: rest => startsWithSeq needle (c :: rest) || containsSeq needle rest

/-- Rust `char::is_whitespace` (the Unicode `White_Space` code points). -/
def rustIsWhitespace (c : Char) : Bool :=
  let n := c.toNat
  (0x9 ≤ n ∧ n ≤ 0xd) ∨ n = 0x20 ∨ n = 0x85 ∨ n = 0xa0 ∨ n = 0x1680 ∨
  (0x2000 ≤ n ∧ n ≤ 0x200a) ∨ n = 0x2028 ∨ n = 0x2029 ∨ n = 0x202f ∨
  n = 0x205f ∨ n = 0x3000

/-- Rust `str::trim`: strip leading and trailing whitespace. -/
def rustTrim (s : List Char) : List Char :=
  ((s.dropWhile rustIsWhitespace).reverse.dropWhile rustIsWhitespace).reverse

/-- Split at the first occurrence of `sep`, as in Rust `str::find` followed by
slicing (also the behaviour of `str::split_once`).  `none` when absent. -/
def splitFirst (sep : Char) : List Char → Option (List Char × List Char)
  | [] => none
  | c :: rest =>
    if c = sep then some ([], rest)
    else
      match splitFirst sep rest with
      | some (a, b) => some (c :: a, b)
      | none => none

/-- Split at the last occurrence of `sep` (Rust `str::rfind` plus slicing). -/
def splitLast (sep : Char) (s : List Char) : Option (List Char × List Char) :=
  match splitFirst sep s.reverse with
  | some (a, b) => some (b.reverse, a.reverse)
  | none => none

/-- Rust `str::split(sep)`: the list of pieces between occurrences of `sep`
(always at least one piece, empty pieces kept). -/
def splitOnChar (sep : Char) : List Char → List (List Char)
  | [] => [[]]
  | c :: rest =>
    if c = sep then [] :: splitOnChar sep rest
    else
      match splitOnChar sep rest with
      | h :: t => (c :: h) :: t
      | [] => [[c]]

/-- `usize::MAX` on the 64-bit targets this program is built for. -/
def USIZE_MAX : Nat := 18446744073709551615

/-- `u32::MAX`. -/
def U32_MAX : Nat := 4294967295

/-- Numeric value of a list of ASCII digits. -/
def digitsToNat (ds : List Char) : Nat :=
  ds.foldl (fun acc c => acc * 10 + (c.toNat - 48)) 0

/-- Rust `str::parse::<usize>()`: an optional leading `+` sign, then one or
more ASCII digits, rejecting values above `usize::MAX`. -/
def parseUsize (s : List Char) : Option Nat :=
  let ds := match s with
    | '+' :: rest => rest
    | other => other
  if ds = [] then none
  else if ds.all (·.isDigit) then
    let v := digitsToNat ds
    if v ≤ USIZE_MAX then some v else none
  else none

/-- Rust `str::parse::<u32>()`. -/
def parseU32 (s : List Char) : Option Nat :=
  let ds := match s with
    | '+' :: rest => rest
    | other => other
  if ds = [] then none
  else if ds.all (·.isDigit) then
    let v := digitsToNat ds
    if v ≤ U32_MAX then some v else none
  else none

namespace Srcuri

/-! Embedding of `src-tauri/src/protocol_handler/parser.rs`. -/

/-- `GitRef` from `protocol_handler/parser.rs`. -/
inductive GitRef where
  | Commit (s : List Char)
  | Branch (s : List Char)
  | Tag (s : List Char)
deriving DecidableEq, Repr

/-- `SrcuriRequest` from `protocol_handler/parser.rs`.  Field order follows
the source struct variants. -/
inductive SrcuriRequest where
  | PartialPath (path : List Char) (line column : Option Nat)
  | WorkspacePath (workspace path : List Char) (line column : Option Nat)
      (remote : Option (List Char))
  | FullPath (full_path : List Char) (line column : Option Nat)
  | RevisionPath (workspace path : List Char) (git_ref : GitRef)
      (line column : Option Nat) (remote : Option (List Char))
  | ProviderPassthrough (provider repo_name provider_path path : List Char)
      (line column : Option Nat) (git_ref : Option GitRef)
      (workspace_override : Option (List Char)) (fragment : Option (List Char))
deriving DecidableEq, Repr

/-- The `column` field of a request (present on every variant). -/
def SrcuriRequest.column : SrcuriRequest → Option Nat
  | .PartialPath _ _ c => c
  | .WorkspacePath _ _ _ c _ => c
  | .FullPath _ _ c => c
  | .RevisionPath _ _ _ _ c _ => c
  | .ProviderPassthrough _ _ _ _ _ c _ _ _ => c

/-- The `line` field of a request. -/
def SrcuriRequest.line : SrcuriRequest → Option Nat
  | .PartialPath _ l _ => l
  | .WorkspacePath _ _ l _ _ => l
  | .FullPath _ l _ => l
  | .RevisionPath _ _ _ l _ _ => l
  | .ProviderPassthrough _ _ _ _ l _ _ _ _ => l

/-- Whether the request is the `ProviderPassthrough` variant. -/
def SrcuriRequest.isProviderPassthrough : SrcuriRequest → Bool
  | .ProviderPassthrough _ _ _ _ _ _ _ _ _ => true
  | _ => false

/-- Whether the request is `PartialPath`. -/
def SrcuriRequest.isPartialPath : SrcuriRequest → Bool
  | .PartialPath _ _ _ => true
  | _ => false

/-- Whether the request is `FullPath`. -/
def SrcuriRequest.isFullPath : SrcuriRequest → Bool
  | .FullPath _ _ _ => true
  | _ => false

/-- The distinct `bail!` sites of `SrcuriParser` (`anyhow` error values). -/
inductive ParseErr where
  | invalidScheme
  | emptyPath
  | gitRefRequiresWorkspace
  | providerParse (message : List Char)
deriving DecidableEq, Repr

/-- `SrcuriParser::parse_leading_number`: longest ASCII-digit run, its parsed
value (`None` on `usize` overflow) and the unparsed remainder. -/
def parse_leading_number (input : List Char) : Option Nat × Option (List Char) :=
  let digits := input.takeWhile (·.isDigit)
  let rest := input.dropWhile (·.isDigit)
  if digits = [] then (none, some input)
  else (parseUsize digits, if rest = [] then none else some rest)

/-- `SrcuriParser::parse_provider_fragment`: line/column extraction from a
provider-style URL fragment (`L10`, `L10C5`, `L10:5`, `lines-5`). -/
def parse_provider_fragment (fragment : Option (List Char)) : Option Nat × Option Nat :=
  match fragment with
  | none => (none, none)
  | some frag =>
    if frag = [] then (none, none)
    else
      let viaL : Option (Option Nat × Option Nat) :=
        match frag with
        | 'L' :: rest =>
          match parse_leading_number rest with
          | (some line, some rem) =>
            if startsWithSeq (lit "C") rem || startsWithSeq (lit "c") rem then
              some (some line, (parse_leading_number (rem.drop 1)).1)
            else if startsWithSeq (lit ":") rem then
              some (some line, (parse_leading_number (rem.drop 1)).1)
            else some (some line, none)
          | (some line, none) => some (some line, none)
          | (none, _) => none
        | _ => none
      match viaL with
      | some r => r
      | none =>
        match frag with
        | 'l' :: 'i' :: 'n' :: 'e' :: 's' :: '-' :: rest =>
          match (parse_leading_number rest).1 with
          | some line => (some line, none)
          | none => (none, none)
        | _ => (none, none)

/-- `SrcuriParser::parse_git_ref_param` inner loop over `q.split('&')`. -/
def findGitRefPair : List (List Char) → Option GitRef
  | [] => none
  | pair :: rest =>
    match splitFirst '=' pair with
    | some (key, value) =>
      if key = lit "commit" ∨ key = lit "sha" then some (.Commit value)
      else if key = lit "branch" then some (.Branch value)
      else if key = lit "tag" then some (.Tag value)
      else findGitRefPair rest
    | none => findGitRefPair rest

/-- `SrcuriParser::parse_git_ref_param`. -/
def parse_git_ref_param (queryPart : Option (List Char)) : Option GitRef :=
  queryPart.bind fun q => findGitRefPair (splitOnChar '&' q)

/-- Generic loop of `parse_remote_param` / `parse_workspace_param`: first
pair whose key matches and whose value is non-empty. -/
def findParamPair (key : List Char) : List (List Char) → Option (List Char)
  | [] => none
  | pair :: rest =>
    match splitFirst '=' pair with
    | some (k, value) =>
      if k = key ∧ value ≠ [] then some value else findParamPair key rest
    | none => findParamPair key rest

/-- `SrcuriParser::parse_remote_param`. -/
def parse_remote_param (queryPart : Option (List Char)) : Option (List Char) :=
  queryPart.bind fun q => findParamPair (lit "remote") (splitOnChar '&' q)

/-- `SrcuriParser::parse_workspace_param`. -/
def parse_workspace_param (queryPart : Option (List Char)) : Option (List Char) :=
  queryPart.bind fun q => findParamPair (lit "workspace") (splitOnChar '&' q)

/-- `path.rsplitn(3, ':').collect::<Vec<_>>()` followed by `reverse()`:
at most three pieces, split from the right. -/
def rsplitn3 (sep : Char) (s : List Char) : List (List Char) :=
  match splitLast sep s with
  | none => [s]
  | some (b1, a1) =>
    match splitLast sep b1 with
    | none => [b1, a1]
    | some (b2, a2) => [b2, a2, a1]

/-- `SrcuriParser::parse_path_with_location`.  The source function returns
`Result` but has no failing branch, so the model is a plain triple
`(file_path, line, column)`. -/
def parse_path_with_location (path : List Char) : List Char × Option Nat × Option Nat :=
  match rsplitn3 ':' path with
  | [p] => (p, none, none)
  | [p, t1] =>
    match parseUsize t1 with
    | some line => (p, some line, none)
    | none => (p, none, none)
  | [p, t1, t2] =>
    match parseUsize t1, parseUsize t2 with
    | some line, some column =>
      if column ≤ 120 then (p, some line, some column)
      else (p, some line, none)
    | some line, none => (p, some line, none)
    | none, _ => (p, none, none)
  | _ => (path, none, none)

/-- `SrcuriParser::is_absolute_path`.  Note that `path.len()` in the source is
the UTF-8 byte length while `chars().nth(1)` is the second character. -/
def is_absolute_path (p : List Char) : Bool :=
  (match p with
   | c :: _ => c = '/'
   | [] => false) ||
  (decide (2 < byteLen p) && (p.get? 1 = some ':'))

/-- `SrcuriParser::split_workspace_path` (`splitn(2, '/')`). -/
def split_workspace_path (p : List Char) : Option (List Char × List Char) :=
  splitFirst '/' p

/-- Lines 117–160 of `SrcuriParser::parse`: classification of a non-provider
path into `FullPath` / `RevisionPath` / `WorkspacePath` / `PartialPath`. -/
def parseStandard (pathPart : List Char) (gitRef : Option GitRef)
    (remote : Option (List Char)) : Option (Except ParseErr SrcuriRequest) :=
  let t := parse_path_with_location pathPart
  let filePath := t.1
  let line := t.2.1
  let column := t.2.2
  if is_absolute_path filePath then
    if gitRef.isSome then some (.error .gitRefRequiresWorkspace)
    else some (.ok (.FullPath filePath line column))
  else
    match split_workspace_path filePath with
    | some (workspace, relativePath) =>
      match gitRef with
      | some g => some (.ok (.RevisionPath workspace relativePath g line column remote))
      | none => some (.ok (.WorkspacePath workspace relativePath line column remote))
    | none =>
      if gitRef.isSome then some (.error .gitRefRequiresWorkspace)
      else some (.ok (.PartialPath filePath line column))

/-- `path_part.split('/').filter(|s| !s.is_empty())`. -/
def segmentsOf (pathPart : List Char) : List (List Char) :=
  (splitOnChar '/' pathPart).filter (· ≠ [])

/-- The provider-passthrough trigger of `SrcuriParser::parse`: at least three
non-empty segments and a first segment containing `.` but not `:`. -/
def isProviderShape (segments : List (List Char)) : Bool :=
  decide (3 ≤ segments.length) &&
    (match segments.head? with
     | some first => first.contains '.' && ! first.contains ':'
     | none => false)

/-- The `provider_input` string handed to the provider sub-parser: the path
part, with the query re-attached when non-empty. -/
def providerInput (pathPart : List Char) (queryPart : Option (List Char)) : List Char :=
  match queryPart with
  | some query => if query = [] then pathPart else pathPart ++ '?' :: query
  | none => pathPart

end Srcuri

namespace SrcuriCore

/-! Embedding of `srcuri-core/src/types.rs` and `srcuri-core/src/parser.rs`.
Errors carry only the `ParseError.message` text; the `original_url` field of
the source error type is not tracked. -/

/-- `SrcuriTarget` from `srcuri-core/src/types.rs` (`line` is `u32`). -/
structure SrcuriTarget where
  remote : List Char
  repo_name : List Char
  ref_value : Option (List Char)
  file_path : Option (List Char)
  line : Option Nat
  is_absolute : Bool
deriving DecidableEq, Repr

/-- `Provider` from `srcuri-core/src/types.rs`. -/
inductive Provider where
  | GitHub
  | GitLab
  | Bitbucket
  | Gitea
  | Codeberg
  | AzureDevOps
deriving DecidableEq, Repr

/-- Model of a parsed `url::Url` value: the pieces this program reads
(`host_str()`, `path()`, query, `fragment()`). -/
structure UrlModel where
  host : List Char
  path : List Char
  query : Option (List Char)
  fragment : Option (List Char)
deriving DecidableEq, Repr

/-- Model of the third-party `url::Url::parse` applied to the `http(s)://`
URLs this program builds, restricted to the forms it is evaluated on here:
lowercase ASCII hosts without userinfo, port or percent-escapes.  Returns
`none` on parse failure (empty host).  The real parser additionally
lowercases and IDNA-maps hosts and percent-encodes parts of the path and
query; those transformations are identity on every input this development
evaluates the model on. -/
def urlParse (s : List Char) : Option UrlModel :=
  let rest? :=
    match startsWithSeq (lit "https://") s, startsWithSeq (lit "http://") s with
    | true, _ => some (s.drop 8)
    | false, true => some (s.drop 7)
    | false, false => none
  match rest? with
  | none => none
  | some rest =>
    let isAuthorityEnd : Char → Bool := fun c => c = '/' ∨ c = '?' ∨ c = '#'
    let authority := rest.takeWhile (fun c => ¬ isAuthorityEnd c)
    let tail := rest.dropWhile (fun c => ¬ isAuthorityEnd c)
    if authority = [] then none
    else
      let isPathEnd : Char → Bool := fun c => c = '?' ∨ c = '#'
      let path := tail.takeWhile (fun c => ¬ isPathEnd c)
      let rest2 := tail.dropWhile (fun c => ¬ isPathEnd c)
      let qf : Option (List Char) × Option (List Char) :=
        match rest2 with
        | '?' :: qtail =>
          (some (qtail.takeWhile (· ≠ '#')),
            match qtail.dropWhile (· ≠ '#') with
            | '#' :: ftail => some ftail
            | _ => none)
        | '#' :: ftail => (none, some ftail)
        | _ => (none, none)
      some ⟨authority, (if path = [] then lit "/" else path), qf.1, qf.2⟩

/-- Model of `url.query_pairs()` (the `form_urlencoded` parser): split the raw
query on `&`, skip empty chunks, split each chunk at its first `=` (a chunk
without `=` yields an empty value).  Percent- and plus-decoding are identity
on every input this development evaluates the model on. -/
def queryPairs (url : UrlModel) : List (List Char × List Char) :=
  match url.query with
  | none => []
  | some q =>
    ((splitOnChar '&' q).filter (· ≠ [])).map fun pair =>
      match splitFirst '=' pair with
      | some (k, v) => (k, v)
      | none => (pair, [])

/-- `detect_provider` from `srcuri-core/src/parser.rs`. -/
def detect_provider (url : UrlModel) : Option Provider :=
  let host := url.host
  let path := url.path
  if host = lit "github.dev" then some .GitHub
  else if host = lit "codespaces.new" then some .GitHub
  else if host = lit "github.com" ∧ startsWithSeq (lit "/codespaces/") path then some .GitHub
  else if startsWithSeq (lit "/-/ide/") path then some .GitLab
  else if containsSeq (lit "/-/blob/") path ∨ containsSeq (lit "/-/tree/") path ∨
          containsSeq (lit "/-/blame/") path ∨ containsSeq (lit "/-/raw/") path then
    some .GitLab
  else if containsSeq (lit "/src/branch/") path ∨ containsSeq (lit "/src/tag/") path ∨
          containsSeq (lit "/src/commit/") path then
    if host = lit "codeberg.org" then some .Codeberg else some .Gitea
  else if containsSeq (lit "/_git/") path then some .AzureDevOps
  else if containsSeq (lit "/blob/") path ∨ containsSeq (lit "/tree/") path ∨
          containsSeq (lit "/blame/") path ∨ containsSeq (lit "/raw/") path then
    some .GitHub
  else if host = lit "github.com" ∨ endsWithSeq (lit ".github.com") host then some .GitHub
  else if host = lit "gitlab.com" ∨ containsSeq (lit "gitlab") host then some .GitLab
  else if host = lit "bitbucket.org" then some .Bitbucket
  else if host = lit "gitea.com" then some .Gitea
  else if host = lit "codeberg.org" then some .Codeberg
  else if host = lit "dev.azure.com" ∨ endsWithSeq (lit ".visualstudio.com") host then
    some .AzureDevOps
  else none

/-- `extract_github_line`: `#L<n>[-L<m>]`-style fragments. -/
def extract_github_line (fragment : Option (List Char)) : Option Nat :=
  match fragment with
  | none => none
  | some frag =>
    match frag with
    | 'L' :: rest =>
      let numStr := ((splitOnChar '-' rest).headD rest).dropWhile (· = 'L')
      parseU32 numStr
    | _ => none

/-- `extract_bitbucket_line`: `#lines-<n>[:<m>|-<m>]`-style fragments. -/
def extract_bitbucket_line (fragment : Option (List Char)) : Option Nat :=
  match fragment with
  | none => none
  | some frag =>
    match frag with
    | 'l' :: 'i' :: 'n' :: 'e' :: 's' :: '-' :: rest =>
      let numStr :=
        if rest.contains ':' then (splitOnChar ':' rest).headD rest
        else (splitOnChar '-' rest).headD rest
      parseU32 numStr
    | _ => none

/-- A repo-only `SrcuriTarget` (the recurring constructor in the source). -/
def repoOnly (remote repo : List Char) : SrcuriTarget :=
  ⟨remote, repo, none, none, none, false⟩

/-- `parse_github`. -/
def parse_github (url : UrlModel) : Except (List Char) SrcuriTarget :=
  let host := url.host
  let segments := segmentsOfPath url.path
  if host = lit "codespaces.new" then
    match segments with
    | owner :: repo :: _ =>
      .ok (repoOnly (lit "github.com/" ++ owner ++ lit "/" ++ repo) repo)
    | _ => .error (lit "codespaces.new URL must have owner and repo")
  else if segments.head? = some (lit "codespaces") then
    match segments with
    | _ :: nw :: owner :: repo :: _ =>
      if nw ≠ lit "new" then .error (lit "Codespaces URL must have owner and repo")
      else .ok (repoOnly (lit "github.com/" ++ owner ++ lit "/" ++ repo) repo)
    | _ => .error (lit "Codespaces URL must have owner and repo")
  else
    match segments with
    | owner :: repo :: restSegs =>
      let remote := host ++ lit "/" ++ owner ++ lit "/" ++ repo
      match restSegs with
      | [] => .ok (repoOnly remote repo)
      | viewType :: rest2 =>
        if ¬ (viewType = lit "blob" ∨ viewType = lit "tree" ∨ viewType = lit "blame" ∨
              viewType = lit "raw" ∨ viewType = lit "pull") then
          .ok (repoOnly remote repo)
        else if viewType = lit "pull" then .ok (repoOnly remote repo)
        else
          let refValue := rest2.head?
          let filePath :=
            if 1 < rest2.length then some (List.intercalate (lit "/") (rest2.drop 1))
            else none
          .ok ⟨remote, repo, refValue, filePath, extract_github_line url.fragment, false⟩
    | _ => .error (lit "GitHub URL must have owner and repo")
where
  /-- `path.split('/').filter(|s| !s.is_empty())`. -/
  segmentsOfPath (path : List Char) : List (List Char) :=
    (splitOnChar '/' path).filter (· ≠ [])

/-- `parse_gitlab`. -/
def parse_gitlab (url : UrlModel) : Except (List Char) SrcuriTarget :=
  let host := url.host
  let segments := parse_github.segmentsOfPath url.path
  if 5 ≤ segments.length ∧ segments.get? 0 = some (lit "-") ∧
     segments.get? 1 = some (lit "ide") ∧ segments.get? 2 = some (lit "project") then
    let group := (segments.get? 3).getD []
    let project := (segments.get? 4).getD []
    let remote := host ++ lit "/" ++ group ++ lit "/" ++ project
    if 7 ≤ segments.length ∧ segments.get? 5 = some (lit "edit") then
      let refValue := some ((segments.get? 6).getD [])
      let filePath :=
        if 9 ≤ segments.length ∧ segments.get? 7 = some (lit "-") then
          let p := List.intercalate (lit "/") (segments.drop 8)
          if p = [] then none else some p
        else if segments.length = 8 ∧ segments.get? 7 = some (lit "-") then none
        else if 7 < segments.length ∧ segments.get? 7 ≠ some (lit "-") then
          some (List.intercalate (lit "/") (segments.drop 7))
        else none
      .ok ⟨remote, project, refValue, filePath, extract_github_line url.fragment, false⟩
    else if segments.length = 7 ∧ segments.get? 5 = some (lit "edit") then
      .ok ⟨remote, project, some ((segments.get? 6).getD []), none, none, false⟩
    else .ok (repoOnly remote project)
  else
    match segments with
    | group :: project :: _ =>
      let remote := host ++ lit "/" ++ group ++ lit "/" ++ project
      if segments.length = 2 then .ok (repoOnly remote project)
      else
        match segments.findIdx? (· = lit "-") with
        | none => .ok (repoOnly remote project)
        | some dashIdx =>
          let viewType := segments.get? (dashIdx + 1)
          if ¬ (viewType = some (lit "blob") ∨ viewType = some (lit "tree") ∨
                viewType = some (lit "blame") ∨ viewType = some (lit "raw")) then
            .ok (repoOnly remote project)
          else
            let refValue := segments.get? (dashIdx + 2)
            let filePath :=
              if dashIdx + 3 < segments.length then
                some (List.intercalate (lit "/") (segments.drop (dashIdx + 3)))
              else none
            .ok ⟨remote, project, refValue, filePath, extract_github_line url.fragment, false⟩
    | _ => .error (lit "GitLab URL must have group and project")

/-- `parse_bitbucket`. -/
def parse_bitbucket (url : UrlModel) : Except (List Char) SrcuriTarget :=
  let host := url.host
  let segments := parse_github.segmentsOfPath url.path
  match segments with
  | workspace :: repo :: _ =>
    let remote := host ++ lit "/" ++ workspace ++ lit "/" ++ repo
    if segments.length = 2 then .ok (repoOnly remote repo)
    else if segments.get? 2 ≠ some (lit "src") then .ok (repoOnly remote repo)
    else
      let refValue := segments.get? 3
      let filePath :=
        if 4 < segments.length then some (List.intercalate (lit "/") (segments.drop 4))
        else none
      .ok ⟨remote, repo, refValue, filePath, extract_bitbucket_line url.fragment, false⟩
  | _ => .error (lit "Bitbucket URL must have workspace and repo")

/-- `parse_gitea` (also used for Codeberg). -/
def parse_gitea (url : UrlModel) (_provider : Provider) : Except (List Char) SrcuriTarget :=
  let host := url.host
  let segments := parse_github.segmentsOfPath url.path
  match segments with
  | owner :: repo :: _ =>
    let remote := host ++ lit "/" ++ owner ++ lit "/" ++ repo
    if segments.length = 2 then .ok (repoOnly remote repo)
    else if segments.get? 2 ≠ some (lit "src") then .ok (repoOnly remote repo)
    else
      let refType := segments.get? 3
      if ¬ (refType = some (lit "branch") ∨ refType = some (lit "tag") ∨
            refType = some (lit "commit")) then
        .ok (repoOnly remote repo)
      else
        let refValue := segments.get? 4
        let filePath :=
          if 5 < segments.length then some (List.intercalate (lit "/") (segments.drop 5))
          else none
        .ok ⟨remote, repo, refValue, filePath, extract_github_line url.fragment, false⟩
  | _ => .error (lit "Gitea URL must have owner and repo")

/-- Model of the byte slice `value[2..]` on a Rust `str`: the suffix starting
at byte offset `i`, or `none` when the offset is out of range or not a
character boundary — the cases in which the slice panics. -/
def sliceBytesFrom : List Char → Nat → Option (List Char)
  | v, 0 => some v
  | [], _ + 1 => none
  | c :: rest, i + 1 =>
    if i + 1 < c.utf8Size then none
    else sliceBytesFrom rest (i + 1 - c.utf8Size)

/-- One iteration of the `parse_azure` query loop, over the accumulated
`(file_path, ref_value, line)` assignments.  The outer `none` models the
panic of the `value[2..]` byte slice in the `version` arm. -/
def azureApplyPair (state : Option (List Char) × Option (List Char) × Option Nat)
    (kv : List Char × List Char) :
    Option (Option (List Char) × Option (List Char) × Option Nat) :=
  let fp := state.1
  let rv := state.2.1
  let ln := state.2.2
  let key := kv.1
  let value := kv.2
  if key = lit "path" then
    let p := value.dropWhile (· = '/')
    if p ≠ [] then some (some p, rv, ln) else some (fp, rv, ln)
  else if key = lit "version" then
    if 2 ≤ byteLen value then
      match sliceBytesFrom value 2 with
      | some sliced => some (fp, some sliced, ln)
      | none => none
    else some (fp, rv, ln)
  else if key = lit "line" then some (fp, rv, parseU32 value)
  else some (fp, rv, ln)

/-- `parse_azure`.  The outer `none` models a panic. -/
def parse_azure (url : UrlModel) : Option (Except (List Char) SrcuriTarget) :=
  let host := url.host
  let segments := parse_github.segmentsOfPath url.path
  match segments.findIdx? (· = lit "_git") with
  | none => some (.error (lit "Azure DevOps URL must contain /_git/"))
  | some gitIdx =>
    match segments.get? (gitIdx + 1) with
    | none => some (.error (lit "Azure DevOps URL must have repo after /_git/"))
    | some repo =>
      let remote := host ++ lit "/" ++ List.intercalate (lit "/") (segments.take (gitIdx + 2))
      match (queryPairs url).foldlM azureApplyPair (none, none, none) with
      | none => none
      | some (fp, rv, ln) => some (.ok ⟨remote, repo, rv, fp, ln, false⟩)

/-- `extract_path_line_suffix`: strip a trailing `:N` line suffix from a
path-style URL. -/
def extract_path_line_suffix (input : List Char) : List Char × Option Nat :=
  match splitLast ':' input with
  | some (before, afterColon) =>
    if before ≠ [] ∧ ¬ endsWithSeq (lit "/") before then
      let numPart := (splitOnChar '#' afterColon).headD afterColon
      match parseU32 numPart with
      | some line => (before, some line)
      | none => (input, none)
    else (input, none)
  | none => (input, none)

/-- `normalize_to_url`. -/
def normalize_to_url (input : List Char) : List Char :=
  let trimmed := input.dropWhile (· = '/')
  if startsWithSeq (lit "https://") trimmed ∨ startsWithSeq (lit "http://") trimmed then trimmed
  else lit "https://" ++ trimmed

/-- `parse_remote_url`.  The outer `none` models a panic (reachable only
through `parse_azure`). -/
def parse_remote_url (remoteUrl : List Char) : Option (Except (List Char) SrcuriTarget) :=
  let s := extract_path_line_suffix remoteUrl
  let urlPart := s.1
  let pathLine := s.2
  let normalized := normalize_to_url urlPart
  match urlParse normalized with
  | none => some (.error (lit "Invalid URL"))
  | some url =>
    match detect_provider url with
    | none => some (.error (lit "Unrecognized repository provider"))
    | some provider =>
      let targetRes : Option (Except (List Char) SrcuriTarget) :=
        match provider with
        | .GitHub => some (parse_github url)
        | .GitLab => some (parse_gitlab url)
        | .Bitbucket => some (parse_bitbucket url)
        | .Gitea => some (parse_gitea url .Gitea)
        | .Codeberg => some (parse_gitea url .Codeberg)
        | .AzureDevOps => parse_azure url
      match targetRes with
      | none => none
      | some (.error e) => some (.error e)
      | some (.ok target) =>
        some (.ok (if target.line = none then { target with line := pathLine } else target))

end SrcuriCore

namespace Srcuri

/-- `SrcuriParser::parse_provider_passthrough`.  The outer `none` models a
panic propagated from `srcuri_core::parse_remote_url`. -/
def parse_provider_passthrough (path : List Char) (fragment : Option (List Char))
    (incomingGitRef : Option GitRef) (workspaceOverride : Option (List Char)) :
    Option (Except ParseErr SrcuriRequest) :=
  let fullUrl :=
    match fragment with
    | some frag => path ++ '#' :: frag
    | none => path
  match SrcuriCore.parse_remote_url fullUrl with
  | none => none
  | some (.error e) => some (.error (.providerParse e))
  | some (.ok target) =>
    let fl := parse_provider_fragment fragment
    let gitRef := incomingGitRef.orElse fun _ => target.ref_value.map GitRef.Branch
    some (.ok (.ProviderPassthrough target.remote target.repo_name path
      (target.file_path.getD [])
      (fl.1.orElse fun _ => target.line) fl.2
      gitRef workspaceOverride fragment))

/-- `SrcuriParser::parse` lines 91–115 plus the tail: query-parameter
extraction, the provider-passthrough trigger, and classification. -/
def parseBody (pathPart : List Char) (queryPart fragment : Option (List Char)) :
    Option (Except ParseErr SrcuriRequest) :=
  let gitRef := parse_git_ref_param queryPart
  let remote := parse_remote_param queryPart
  let workspaceOverride := parse_workspace_param queryPart
  if isProviderShape (segmentsOf pathPart) then
    parse_provider_passthrough (providerInput pathPart queryPart) fragment gitRef
      workspaceOverride
  else
    parseStandard pathPart gitRef remote

/-- The `(path_part, query_part, fragment)` split of `SrcuriParser::parse`
(lines 60–85): trim, drop the 9-byte scheme, split at the first `#`, then at
the first `?`. -/
def linkParts (link : List Char) : List Char × Option (List Char) × Option (List Char) :=
  let remainder := (rustTrim link).drop 9
  let pf : List Char × Option (List Char) :=
    match splitFirst '#' remainder with
    | some (a, b) => (a, some b)
    | none => (remainder, none)
  let pq : List Char × Option (List Char) :=
    match splitFirst '?' pf.1 with
    | some (a, b) => (a, some b)
    | none => (pf.1, none)
  (pq.1, pq.2, pf.2)

/-- `SrcuriParser::parse`.  The outer `none` models a Rust panic; `.error`
models the `anyhow` error return. -/
def parse (link : List Char) : Option (Except ParseErr SrcuriRequest) :=
  let l := rustTrim link
  if startsWithSeq (lit "srcuri://") l then
    if l.drop 9 = [] then some (.error .emptyPath)
    else
      let parts := linkParts link
      parseBody parts.1 parts.2.1 parts.2.2
  else some (.error .invalidScheme)

end Srcuri

namespace GitOps

/-! Embedding of `src-tauri/src/protocol_handler/git.rs` (the checkout path).
Filesystem probes and the outcomes of the git child processes are modelled as
an explicit `GitState` record; the Boolean returned alongside the result of
`checkout_revision` records whether the state-mutating `git checkout <rev>`
command was executed. -/

/-- `WorkingTreeStatus` from `git.rs`. -/
structure WorkingTreeStatus where
  is_clean : Bool
  modified_count : Nat
  untracked_count : Nat
deriving DecidableEq, Repr

/-- `GitOperationState` from `git.rs`. -/
structure GitOperationState where
  is_blocked : Bool
  blocking_reason : Option (List Char)
deriving DecidableEq, Repr

/-- The observable state `checkout_revision` consults: which sentinel entries
exist under `.git/`, the `git status --porcelain` output, and the outcome of
the eventual `git checkout` child process. -/
structure GitState where
  is_git_repo : Bool
  merge_head : Bool
  rebase_head : Bool
  rebase_merge : Bool
  rebase_apply : Bool
  cherry_pick_head : Bool
  bisect_log : Bool
  status_cmd_success : Bool
  status_lines : List (List Char)
  checkout_success : Bool
  checkout_stderr : List Char
deriving DecidableEq, Repr

/-- The `bail!` sites of the checkout path in `git.rs`. -/
inductive GitErr where
  | notGitRepo
  | statusFailed
  | blocked (reason : Option (List Char))
  | dirty (modifiedCount : Nat)
  | revisionNotFound (rev : List Char)
  | checkoutFailed (rev stderr : List Char)
deriving DecidableEq, Repr

/-- `GitHandler::check_git_operation_state`. -/
def check_git_operation_state (s : GitState) : Except GitErr GitOperationState :=
  if ¬ s.is_git_repo then .error .notGitRepo
  else if s.merge_head then .ok ⟨true, some (lit "Merge in progress")⟩
  else if s.rebase_head ∨ s.rebase_merge ∨ s.rebase_apply then
    .ok ⟨true, some (lit "Rebase in progress")⟩
  else if s.cherry_pick_head then .ok ⟨true, some (lit "Cherry-pick in progress")⟩
  else if s.bisect_log then .ok ⟨true, some (lit "Bisect in progress")⟩
  else .ok ⟨false, none⟩

/-- `GitHandler::get_working_tree_status` (the `git status --porcelain`
output is assumed valid UTF-8, as in the happy path of the source). -/
def get_working_tree_status (s : GitState) : Except GitErr WorkingTreeStatus :=
  if ¬ s.is_git_repo then .error .notGitRepo
  else if ¬ s.status_cmd_success then .error .statusFailed
  else
    let lines := s.status_lines
    let modifiedCount := (lines.filter (fun l => ¬ startsWithSeq (lit "??") l)).length
    let untrackedCount := (lines.filter (fun l => startsWithSeq (lit "??") l)).length
    .ok ⟨lines.isEmpty, modifiedCount, untrackedCount⟩

/-- `GitHandler::checkout_revision`.  The second component records whether
`git checkout <rev>` was executed (the only repository-mutating step). -/
def checkout_revision (s : GitState) (rev : List Char) : Except GitErr Unit × Bool :=
  if ¬ s.is_git_repo then (.error .notGitRepo, false)
  else
    match check_git_operation_state s with
    | .error e => (.error e, false)
    | .ok st =>
      if st.is_blocked then (.error (.blocked st.blocking_reason), false)
      else
        match get_working_tree_status s with
        | .error e => (.error e, false)
        | .ok status =>
          if ¬ status.is_clean then (.error (.dirty status.modified_count), false)
          else if s.checkout_success then (.ok (), true)
          else if containsSeq (lit "pathspec") s.checkout_stderr ∧
                  containsSeq (lit "did not match") s.checkout_stderr then
            (.error (.revisionNotFound rev), true)
          else (.error (.checkoutFailed rev s.checkout_stderr), true)

/-- Whether any in-progress-operation sentinel is present (the blocked
condition of the claim). -/
def anySentinel (s : GitState) : Bool :=
  s.merge_head ∨ s.rebase_head ∨ s.rebase_merge ∨ s.rebase_apply ∨
  s.cherry_pick_head ∨ s.bisect_log

end GitOps

namespace Matcher

/-! Embedding of `src-tauri/src/protocol_handler/matcher.rs`.  Paths
(`PathBuf`) are modelled as `List Char`; the filesystem is an explicit record
of probe functions; the MRU tracker is a function from workspace path to an
optional `last_active` instant (`SystemTime` modelled as `Nat`, whose order
is chronological). -/

/-- `WorkspaceMatch` from `matcher.rs` (`last_seen` is unused by the code
under verification and omitted; `last_active` is the MRU annotation). -/
structure WorkspaceMatch where
  workspace_name : List Char
  workspace_path : List Char
  full_file_path : List Char
  last_active : Option Nat
deriving DecidableEq, Repr

/-- `WorkspaceConfig` from `settings/models.rs`. -/
structure WorkspaceConfig where
  path : List Char
  name : Option (List Char)
  editor : List Char
  auto_discovered : Bool
  normalized_path : Option (List Char)
deriving DecidableEq, Repr

/-- Filesystem probes used by the matcher (`Path::exists`, `is_file`,
`is_dir`). -/
structure Fs where
  pathExists : List Char → Bool
  isFile : List Char → Bool
  isDir : List Char → Bool

/-- Model of `PathBuf::join(root, rel)`: an absolute `rel` replaces the path,
otherwise it is appended behind a single separator. -/
def pathJoin (root rel : List Char) : List Char :=
  match rel with
  | '/' :: _ => rel
  | _ =>
    match root.getLast? with
    | some '/' => root ++ rel
    | _ => root ++ '/' :: rel

/-- Model of `Path::file_name().and_then(|n| n.to_str())`: the last non-empty
`/`-separated component. -/
def fileName (p : List Char) : Option (List Char) :=
  ((splitOnChar '/' p).filter (· ≠ [])).getLast?

/-- ASCII lowering of a character list (model of `str::to_lowercase` on the
ASCII names this development evaluates it on). -/
def toLowerList (s : List Char) : List Char := s.map Char.toLower

/-- The `eq_ignore_case` helper at the bottom of `matcher.rs`. -/
def eqIgnoreCase (a b : List Char) : Bool := toLowerList a = toLowerList b

/-- The workspace name used for comparison in `find_workspace_path`:
the explicit `name` or the basename of `normalized_path` (empty fallback). -/
def derivedName (w : WorkspaceConfig) : List Char :=
  match w.name with
  | some n => n
  | none => ((w.normalized_path.bind fileName).getD [])

/-- The two `bail!` sites of `find_workspace_path`. -/
inductive FindErr where
  | pathNotFound (workspace relativePath : List Char)
  | workspaceNotFound (workspace : List Char)
deriving DecidableEq, Repr

/-- `PathMatcher::find_workspace_path`: first case-insensitive name match
with a populated `normalized_path` decides; a missing file there is an error,
a name that never matches (or matches only rows without `normalized_path`)
falls through to the not-found error. -/
def find_workspace_path (fs : Fs) : List WorkspaceConfig → List Char → List Char →
    Except FindErr (List Char)
  | [], workspaceName, _ => .error (.workspaceNotFound workspaceName)
  | w :: rest, workspaceName, relativePath =>
    if eqIgnoreCase (derivedName w) workspaceName then
      match w.normalized_path with
      | some root =>
        let fullPath := pathJoin root relativePath
        if fs.pathExists fullPath ∧ (fs.isFile fullPath ∨ fs.isDir fullPath) then
          .ok fullPath
        else .error (.pathNotFound workspaceName relativePath)
      | none => find_workspace_path fs rest workspaceName relativePath
    else find_workspace_path fs rest workspaceName relativePath

/-- Three-way comparison on `Nat` (model of `Ord::cmp` on `SystemTime`). -/
def cmpNat (a b : Nat) : Ordering :=
  if a < b then .lt else if b < a then .gt else .eq

/-- Byte-wise three-way comparison of Rust strings (UTF-8 byte order equals
code-point order). -/
def cmpCharList : List Char → List Char → Ordering
  | [], [] => .eq
  | [], _ :: _ => .lt
  | _ :: _, [] => .gt
  | a :: as_, b :: bs =>
    match cmpNat a.toNat b.toNat with
    | .eq => cmpCharList as_ bs
    | o => o

/-- The comparator closure passed to `matches.sort_by` in
`sort_by_recent_usage`. -/
def matchCmp (a b : WorkspaceMatch) : Ordering :=
  match a.last_active, b.last_active with
  | some timeA, some timeB => cmpNat timeB timeA
  | some _, none => .lt
  | none, some _ => .gt
  | none, none => cmpCharList a.workspace_name b.workspace_name

/-- The `≤` relation induced by the comparator: `sort_by` produces a list in
which consecutive elements never compare `Greater`. -/
def matchLe (a b : WorkspaceMatch) : Bool :=
  match matchCmp a b with
  | .gt => false
  | _ => true

/-- `PathMatcher::sort_by_recent_usage`: annotate each match with the MRU
tracker's `last_active` for its workspace path, then stably sort with the
comparator (Rust `Vec::sort_by` is a stable merge sort; `List.mergeSort` is
the stable merge sort of the Lean library). -/
def sort_by_recent_usage (tracker : List Char → Option Nat)
    (ms : List WorkspaceMatch) : List WorkspaceMatch :=
  let annotated := ms.map fun m => { m with last_active := tracker m.workspace_path }
  annotated.mergeSort matchLe

end Matcher

namespace Handler

/-! Embedding of `ProtocolHandler::handle_workspace_path` from
`src-tauri/src/protocol_handler/mod.rs`.  The editor dispatcher is a thin
collaborator modelled by a single success flag. -/

open Matcher

/-- The `HandleResult` variants reachable from `handle_workspace_path`
(`Opened`, `ShowCloneDialog`) with their source payloads. -/
inductive HandleResult where
  | Opened
  | ShowCloneDialog (workspace_name clone_path remote_url file_path : List Char)
      (line column : Option Nat) (git_ref : Option Srcuri.GitRef)
deriving DecidableEq, Repr

/-- Errors surfaced by `handle_workspace_path`: a resolution error propagated
from the matcher, or a dispatcher failure. -/
inductive HandleErr where
  | find (e : FindErr)
  | dispatchFailed
deriving DecidableEq, Repr

/-- The collaborators of `handle_workspace_path`: filesystem, configured
workspaces, the `default_workspaces_folder` setting, the home directory used
by `shellexpand::tilde`, and whether `dispatcher.open` succeeds. -/
structure HandlerEnv where
  fs : Fs
  workspaces : List WorkspaceConfig
  default_workspaces_folder : List Char
  home_dir : List Char
  dispatch_ok : Bool

/-- Model of `shellexpand::tilde`: a leading `~` (alone or before `/`) is
replaced by the home directory; anything else is returned verbatim. -/
def tildeExpand (home p : List Char) : List Char :=
  match p with
  | '~' :: rest =>
    match rest with
    | [] => home
    | '/' :: _ => home ++ rest
    | _ => p
  | _ => p

/-- `ProtocolHandler::handle_workspace_path`. -/
def handle_workspace_path (env : HandlerEnv) (workspace path : List Char)
    (line column : Option Nat) (remote : Option (List Char)) :
    Except HandleErr HandleResult :=
  match find_workspace_path env.fs env.workspaces workspace path with
  | .ok _fullPath =>
    if env.dispatch_ok then .ok .Opened else .error .dispatchFailed
  | .error e =>
    match remote with
    | some remoteUrl =>
      let repoBase := tildeExpand env.home_dir env.default_workspaces_folder
      let clonePath := pathJoin repoBase workspace
      .ok (.ShowCloneDialog workspace clonePath remoteUrl path line column none)
    | none => .error (.find e)

end Handler

namespace PathValidator

/-! Embedding of `PathValidator::sanitize` from
`src-tauri/src/path_validator/mod.rs`, on the non-Windows target the
application is built for here. -/

/-- The character class of the `SUSPICIOUS_PATTERNS` regex. -/
def isSuspiciousClassChar (c : Char) : Bool :=
  c = '<' ∨ c = '>' ∨ c = '|' ∨ c = '?' ∨ c = '*' ∨ c = ';' ∨ c = '\x27' ∨
  c = '\x60' ∨ c = '$' ∨ c = '&' ∨ c = '(' ∨ c = ')' ∨ c = '\x7b' ∨
  c = '\x7d' ∨ c = '[' ∨ c = ']' ∨ c = '\x22'

/-- `SUSPICIOUS_PATTERNS.is_match(path)`: the path contains `../`, `..\`,
`~`, `//`, a control character (0x00–0x1F), or a shell-unsafe punctuation
character. -/
def containsSuspicious (p : List Char) : Bool :=
  containsSeq (lit "../") p ∨ containsSeq (lit "..\\") p ∨ p.contains '~' ∨
  containsSeq (lit "//") p ∨ p.any (fun c => c.toNat ≤ 0x1f) ∨
  p.any isSuspiciousClassChar

/-- The dangerous extension blocklist. -/
def DANGEROUS_EXTENSIONS : List (List Char) :=
  [lit ".exe", lit ".bat", lit ".cmd", lit ".sh", lit ".ps1", lit ".vbs",
   lit ".app", lit ".dmg"]

/-- The `bail!` sites of `sanitize`, in source order. -/
inductive SanitizeErr where
  | empty
  | tooLong
  | suspicious
  | invalidBackslash
  | colonChars
  | dangerousExt
deriving DecidableEq, Repr

/-- `PathValidator::sanitize` (non-Windows branches: any `\\` sequence and
any `:` are rejected). -/
def sanitize (path : List Char) : Except SanitizeErr Unit :=
  if path = [] then .error .empty
  else if 4096 < byteLen path then .error .tooLong
  else if containsSuspicious path then .error .suspicious
  else if containsSeq (lit "\\\\") path then .error .invalidBackslash
  else if path.contains ':' then .error .colonChars
  else if DANGEROUS_EXTENSIONS.any
      (fun ext => endsWithSeq ext (Matcher.toLowerList path)) then
    .error .dangerousExt
  else .ok ()

end PathValidator

namespace Discovery

/-! Embedding of `WorkspaceSync` from `src-tauri/src/settings/discovery.rs`.
The filesystem is an explicit record; `save` is modelled by returning the
updated settings value. -/

open Matcher

/-- The settings fields `sync` consults. -/
structure Settings where
  workspaces : List WorkspaceConfig
  default_workspaces_folder : List Char
  ignored_workspaces : List (List Char)
deriving DecidableEq, Repr

/-- `SyncResult` from `discovery.rs`. -/
structure SyncResult where
  added : List (List Char)
  removed : List (List Char)
deriving DecidableEq, Repr

/-- Filesystem probes used by discovery: directory listing (`none` models a
`read_dir` error), `is_dir`, `exists`, and the home directory for tilde
expansion. -/
structure DiscoveryFs where
  readDir : List Char → Option (List (List Char))
  isDir : List Char → Bool
  pathExists : List Char → Bool
  home : List Char

/-- `WorkspaceSync::get_normalized_workspaces_folder`. -/
def get_normalized_workspaces_folder (fs : DiscoveryFs) (rawPath : List Char) :
    Option (List Char) :=
  if rawPath = [] then none
  else
    let expanded := Handler.tildeExpand fs.home rawPath
    if fs.pathExists expanded ∧ fs.isDir expanded then some expanded else none

/-- `WorkspaceSync::normalize_path` (ignored-workspace entries). -/
def normalize_path (fs : DiscoveryFs) (rawPath : List Char) : Option (List Char) :=
  if rawPath = [] then none else some (Handler.tildeExpand fs.home rawPath)

/-- `WorkspaceSync::scan_folder`: immediate children that are directories,
not dot-prefixed, and contain a `.git` entry. -/
def scan_folder (fs : DiscoveryFs) (folder : List Char) : List (List Char) :=
  match fs.readDir folder with
  | none => []
  | some entries =>
    entries.filter fun path =>
      fs.isDir path &&
      (match fileName path with
       | some name => ! startsWithSeq (lit ".") name
       | none => false) &&
      fs.pathExists (pathJoin path (lit ".git"))

/-- Whether the removal loop of `sync` deletes this workspace row: it is
auto-discovered and its `normalized_path` is absent from the scan. -/
def removePred (discovered : List (List Char)) (w : WorkspaceConfig) : Bool :=
  w.auto_discovered &&
  (match w.normalized_path with
   | some p => ! decide (p ∈ discovered)
   | none => false)

/-- `WorkspaceSync::sync`.  The Rust addition loop (push per non-ignored,
non-existing discovered repo, in scan order, against a snapshot of the
pre-existing paths) is rendered as a filter + map; the removal `while` loop
(delete in place, preserving order) as a filter. -/
def sync (fs : DiscoveryFs) (settings : Settings) : SyncResult × Settings :=
  match get_normalized_workspaces_folder fs settings.default_workspaces_folder with
  | none => (⟨[], []⟩, settings)
  | some folder =>
    let ignored := settings.ignored_workspaces.filterMap (normalize_path fs)
    let existingPaths := settings.workspaces.filterMap (·.normalized_path)
    let discovered := scan_folder fs folder
    let toAdd := discovered.filter fun repo =>
      ¬ repo ∈ ignored ∧ ¬ repo ∈ existingPaths
    let newRows : List WorkspaceConfig := toAdd.map fun repo =>
      { path := repo
        name := some ((fileName repo).getD (lit "unknown"))
        editor := []
        auto_discovered := true
        normalized_path := some repo }
    let added := toAdd.map fun repo => (fileName repo).getD (lit "unknown")
    let workspaces1 := settings.workspaces ++ newRows
    let removedRows := workspaces1.filter (removePred discovered)
    let kept := workspaces1.filter fun w => ¬ removePred discovered w
    let removed := removedRows.map fun w => w.name.getD w.path
    (⟨added, removed⟩, { settings with workspaces := kept })

end Discovery

/-! ### Concrete fixtures used by witnesses and counterexamples -/

/-- The pairwise ordering property claimed of a sorted match list: an entry
with MRU data never follows one without, recency is descending where both
have data, and entries without data are alphabetical among themselves. -/
def recencyOrdered (a b : Matcher.WorkspaceMatch) : Prop :=
  (∀ tb, b.last_active = some tb → ∃ ta, a.last_active = some ta ∧ tb ≤ ta) ∧
  (a.last_active = none → b.last_active = none) ∧
  (a.last_active = none → b.last_active = none →
    Matcher.cmpCharList a.workspace_name b.workspace_name ≠ .gt)

/-- A git state with a merge in progress (for the C4 witness). -/
def c4BlockedState : GitOps.GitState :=
  ⟨true, true, false, false, false, false, false, true, [], true, []⟩

/-- A clean, unblocked git state (for the C4 witness). -/
def c4CleanState : GitOps.GitState :=
  ⟨true, false, false, false, false, false, false, true, [], true, []⟩

/-- A dirty, unblocked git state with two modified lines (for the C4
witness). -/
def c4DirtyState : GitOps.GitState :=
  ⟨true, false, false, false, false, false, false, true, [lit " M a.rs", lit "?? b.rs"], true, []⟩

/-- A handler environment with one configured workspace `ws` rooted at `/w`
on an empty filesystem (for the C5 counterexample). -/
def c5Env : Handler.HandlerEnv :=
  { fs := ⟨fun _ => false, fun _ => false, fun _ => false⟩
    workspaces := [⟨lit "/w", some (lit "ws"), [], false, some (lit "/w")⟩]
    default_workspaces_folder := lit "/base"
    home_dir := lit "/home/u"
    dispatch_ok := true }

/-- A handler environment where `/w/f` exists as a file (for the C5
witness). -/
def c5OkEnv : Handler.HandlerEnv :=
  { fs := ⟨fun p => p == lit "/w/f", fun p => p == lit "/w/f", fun _ => false⟩
    workspaces := [⟨lit "/w", some (lit "ws"), [], false, some (lit "/w")⟩]
    default_workspaces_folder := lit "/base"
    home_dir := lit "/home/u"
    dispatch_ok := true }

/-- An MRU tracker knowing only workspace `/a` (for the C6 witness). -/
def c6Tracker : List Char → Option Nat :=
  fun p => if p == lit "/a" then some 5 else none

/-- Two matches, listed with the MRU-less one first (for the C6 witness). -/
def c6Matches : List Matcher.WorkspaceMatch :=
  [⟨lit "b", lit "/b", lit "/b/f", none⟩, ⟨lit "a", lit "/a", lit "/a/f", none⟩]

/-- Discovery filesystem: `/f` contains directory `/f/w` which has no `.git`
entry (for the C9 counterexample). -/
def c9Fs : Discovery.DiscoveryFs :=
  { readDir := fun p => if p == lit "/f" then some [lit "/f/w"] else none
    isDir := fun p => p == lit "/f" || p == lit "/f/w"
    pathExists := fun p => p == lit "/f" || p == lit "/f/w"
    home := lit "/home/u" }

/-- Discovery filesystem where `/f/w/.git` exists (for the C9 witness). -/
def c9GitFs : Discovery.DiscoveryFs :=
  { readDir := fun p => if p == lit "/f" then some [lit "/f/w"] else none
    isDir := fun p => p == lit "/f" || p == lit "/f/w"
    pathExists := fun p => p == lit "/f" || p == lit "/f/w" || p == lit "/f/w/.git"
    home := lit "/home/u" }

/-- The auto-discovered workspace row rooted at `/f/w`. -/
def c9Row : Matcher.WorkspaceConfig :=
  ⟨lit "/f/w", some (lit "w"), [], true, some (lit "/f/w")⟩

/-- Settings holding only `c9Row`, with `/f` as the workspaces folder. -/
def c9Settings : Discovery.Settings := ⟨[c9Row], lit "/f", []⟩

/-! ### Helper lemmas on the string primitives -/

theorem splitFirst_eq_none {sep : Char} {s : List Char} (h : sep ∉ s) :
    splitFirst sep s = none := by
  induction s with
  | nil => rfl
  | cons c rest ih =>
    have hc : ¬ c = sep := fun hh => h (by simp [hh])
    have hr : sep ∉ rest := fun hm => h (List.mem_cons_of_mem _ hm)
    simp [splitFirst, hc, ih hr]

theorem splitFirst_append {sep : Char} {ys zs : List Char} (h : sep ∉ ys) :
    splitFirst sep (ys ++ sep :: zs) = some (ys, zs) := by
  induction ys with
  | nil => simp [splitFirst]
  | cons c rest ih =>
    have hc : ¬ c = sep := fun hh => h (by simp [hh])
    have hr : sep ∉ rest := fun hm => h (List.mem_cons_of_mem _ hm)
    simp [splitFirst, hc, ih hr]

theorem splitLast_eq_none {sep : Char} {s : List Char} (h : sep ∉ s) :
    splitLast sep s = none := by
  unfold splitLast
  rw [splitFirst_eq_none (by simpa using h)]

theorem splitLast_append {sep : Char} {ys zs : List Char} (h : sep ∉ zs) :
    splitLast sep (ys ++ sep :: zs) = some (ys, zs) := by
  unfold splitLast
  have hrev : (ys ++ sep :: zs).reverse = zs.reverse ++ sep :: ys.reverse := by
    simp [List.reverse_append]
  rw [hrev, splitFirst_append (by simpa using h)]
  simp

theorem rsplitn3_two {sep : Char} {before tail : List Char}
    (hb : sep ∉ before) (ht : sep ∉ tail) :
    Srcuri.rsplitn3 sep (before ++ sep :: tail) = [before, tail] := by
  unfold Srcuri.rsplitn3
  rw [splitLast_append ht]
  dsimp only
  rw [splitLast_eq_none hb]

theorem rsplitn3_three {sep : Char} {b t1 t2 : List Char}
    (h1 : sep ∉ t1) (h2 : sep ∉ t2) :
    Srcuri.rsplitn3 sep (b ++ sep :: (t1 ++ sep :: t2)) = [b, t1, t2] := by
  unfold Srcuri.rsplitn3
  have hsh : b ++ sep :: (t1 ++ sep :: t2) = (b ++ sep :: t1) ++ sep :: t2 := by
    simp
  rw [hsh, splitLast_append h2]
  dsimp only
  rw [splitLast_append h1]

/-! ### Analysis of `parse_path_with_location` -/

theorem column_of_ppwl_le {path : List Char} {c : Nat}
    (h : (Srcuri.parse_path_with_location path).2.2 = some c) : c ≤ 120 := by
  rcases hr : Srcuri.rsplitn3 ':' path with _ | ⟨p, tl⟩
  · simp [Srcuri.parse_path_with_location, hr] at h
  · rcases tl with _ | ⟨t1, tl2⟩
    · simp [Srcuri.parse_path_with_location, hr] at h
    · rcases tl2 with _ | ⟨t2, tl3⟩
      · rcases hp : parseUsize t1 with _ | line <;>
          simp [Srcuri.parse_path_with_location, hr, hp] at h
      · rcases tl3 with _ | ⟨t4, tl4⟩
        · rcases hp1 : parseUsize t1 with _ | line
          · simp [Srcuri.parse_path_with_location, hr, hp1] at h
          · rcases hp2 : parseUsize t2 with _ | column
            · simp [Srcuri.parse_path_with_location, hr, hp1, hp2] at h
            · by_cases hc : column ≤ 120
              · simp [Srcuri.parse_path_with_location, hr, hp1, hp2, hc] at h
                omega
              · simp [Srcuri.parse_path_with_location, hr, hp1, hp2, hc] at h
        · simp [Srcuri.parse_path_with_location, hr] at h

theorem ppwl_two_ints_clamp {b t1 t2 : List Char} {line col : Nat}
    (h1 : ':' ∉ t1) (h2 : ':' ∉ t2)
    (hl : parseUsize t1 = some line) (hc : parseUsize t2 = some col)
    (hgt : 120 < col) :
    Srcuri.parse_path_with_location (b ++ ':' :: (t1 ++ ':' :: t2)) =
      (b, some line, none) := by
  have hr := rsplitn3_three (b := b) h1 h2
  simp [Srcuri.parse_path_with_location, hr, hl, hc, Nat.not_le.mpr hgt]

theorem ppwl_one_colon_junk {before tail : List Char}
    (hb : ':' ∉ before) (ht : ':' ∉ tail) (hn : parseUsize tail = none) :
    Srcuri.parse_path_with_location (before ++ ':' :: tail) = (before, none, none) := by
  have hr := rsplitn3_two hb ht
  simp [Srcuri.parse_path_with_location, hr, hn]

theorem ppwl_two_colon_junk_line {b t1 t2 : List Char}
    (h1 : ':' ∉ t1) (h2 : ':' ∉ t2) (hn : parseUsize t1 = none) :
    Srcuri.parse_path_with_location (b ++ ':' :: (t1 ++ ':' :: t2)) = (b, none, none) := by
  have hr := rsplitn3_three (b := b) h1 h2
  rcases hp2 : parseUsize t2 with _ | col <;>
    simp [Srcuri.parse_path_with_location, hr, hn, hp2]

/-! ### Analysis of `parseStandard` and `parse` -/

theorem parseStandard_column {p : List Char} {g : Option Srcuri.GitRef}
    {rem : Option (List Char)} {r : Srcuri.SrcuriRequest}
    (h : Srcuri.parseStandard p g rem = some (.ok r)) :
    r.column = (Srcuri.parse_path_with_location p).2.2 := by
  rcases habs : Srcuri.is_absolute_path (Srcuri.parse_path_with_location p).1 with _ | _
  · rcases hsp : Srcuri.split_workspace_path (Srcuri.parse_path_with_location p).1 with _ | pr
    · rcases g with _ | g0
      · simp [Srcuri.parseStandard, habs, hsp] at h
        subst h; rfl
      · simp [Srcuri.parseStandard, habs, hsp] at h
    · rcases g with _ | g0 <;> simp [Srcuri.parseStandard, habs, hsp] at h <;>
        subst h <;> rfl
  · rcases g with _ | g0
    · simp [Srcuri.parseStandard, habs] at h
      subst h; rfl
    · simp [Srcuri.parseStandard, habs] at h

theorem parseStandard_some_gitRef {p : List Char} {g : Srcuri.GitRef}
    {rem : Option (List Char)} {r : Srcuri.SrcuriRequest}
    (h : Srcuri.parseStandard p (some g) rem = some (.ok r)) :
    ∃ ws rel line col, r = .RevisionPath ws rel g line col rem := by
  rcases habs : Srcuri.is_absolute_path (Srcuri.parse_path_with_location p).1 with _ | _
  · rcases hsp : Srcuri.split_workspace_path (Srcuri.parse_path_with_location p).1 with _ | pr
    · simp [Srcuri.parseStandard, habs, hsp] at h
    · simp [Srcuri.parseStandard, habs, hsp] at h
      exact ⟨pr.1, pr.2, _, _, h.symm⟩
  · simp [Srcuri.parseStandard, habs] at h

theorem provider_ok_shape {path : List Char} {frag : Option (List Char)}
    {g : Option Srcuri.GitRef} {w : Option (List Char)} {r : Srcuri.SrcuriRequest}
    (h : Srcuri.parse_provider_passthrough path frag g w = some (.ok r)) :
    r.isProviderPassthrough = true := by
  simp only [Srcuri.parse_provider_passthrough] at h
  repeat split at h
  · simp at h
  · simp at h
  · simp only [Option.some.injEq, Except.ok.injEq] at h
    subst h
    rfl

theorem parse_ok_cases {link : List Char} {r : Srcuri.SrcuriRequest}
    (h : Srcuri.parse link = some (.ok r)) :
    r.isProviderPassthrough = true ∨
    Srcuri.parseStandard (Srcuri.linkParts link).1
      (Srcuri.parse_git_ref_param (Srcuri.linkParts link).2.1)
      (Srcuri.parse_remote_param (Srcuri.linkParts link).2.1) = some (.ok r) := by
  by_cases h1 : startsWithSeq (lit "srcuri://") (rustTrim link) = true
  · by_cases h2 : (rustTrim link).drop 9 = []
    · simp [Srcuri.parse, h1, h2] at h
    · by_cases h3 : Srcuri.isProviderShape (Srcuri.segmentsOf (Srcuri.linkParts link).1) = true
      · simp only [Srcuri.parse, Srcuri.parseBody, h1, h2, h3, if_true, if_false,
          ite_false, ite_true] at h
        left; exact provider_ok_shape h
      · simp only [Srcuri.parse, Srcuri.parseBody, h1, h3, if_true] at h
        rw [if_neg h2] at h
        simp only [Bool.false_eq_true, if_false] at h
        right; exact h
  · simp [Srcuri.parse, h1] at h

/-! ### Claims C1, C2, C3, C7, C10 -/

/-- C1, counterexample: the parser accepts
`srcuri://github.com/owner/repo/blob/main/file.rs#L10C500` and produces a
`ProviderPassthrough` request whose column is 500, above the claimed bound
of 120 — the provider-fragment column is not clamped. -/
theorem c1_counterexample :
    Srcuri.parse (lit "srcuri://github.com/owner/repo/blob/main/file.rs#L10C500") =
      some (Except.ok (.ProviderPassthrough (lit "github.com/owner/repo") (lit "repo")
        (lit "github.com/owner/repo/blob/main/file.rs") (lit "file.rs")
        (some 10) (some 500) (some (.Branch (lit "main"))) none (some (lit "L10C500")))) ∧
    ¬ (500 ≤ 120) :=
  ⟨by decide, by decide⟩

/-- C1 (amended): every request produced by `SrcuriParser::parse` other than
`ProviderPassthrough` has its column either absent or at most 120, and
whenever the path suffix parses as two integers with the column above 120
the line is kept and the column dropped.  (A `ProviderPassthrough` column
comes from the provider fragment and is not clamped.) -/
theorem c1_column_clamped_for_non_provider :
    (∀ link r c, Srcuri.parse link = some (Except.ok r) →
        r.isProviderPassthrough = false → r.column = some c → c ≤ 120) ∧
    (∀ b t1 t2 line col, ':' ∉ t1 → ':' ∉ t2 →
        parseUsize t1 = some line → parseUsize t2 = some col → 120 < col →
        Srcuri.parse_path_with_location (b ++ ':' :: (t1 ++ ':' :: t2)) =
          (b, some line, none)) := by
  constructor
  · intro link r c hp hnp hc
    rcases parse_ok_cases hp with hprov | hstd
    · simp [hprov] at hnp
    · have hcol := parseStandard_column hstd
      rw [hc] at hcol
      exact column_of_ppwl_le hcol.symm
  · intro b t1 t2 line col h1 h2 hl hcol hgt
    exact ppwl_two_ints_clamp h1 h2 hl hcol hgt

/-- Witness for C1: the column 120 is accepted on `srcuri://file.txt:10:120`,
and the concrete suffix `:10:121` keeps line 10 and drops the column. -/
theorem c1_witness :
    120 ≤ 120 ∧
    Srcuri.parse_path_with_location (lit "f" ++ ':' :: (lit "10" ++ ':' :: lit "121")) =
      (lit "f", some 10, none) :=
  ⟨c1_column_clamped_for_non_provider.1 (lit "srcuri://file.txt:10:120")
      (.PartialPath (lit "file.txt") (some 10) (some 120)) 120
      (by decide) (by decide) (by decide),
    c1_column_clamped_for_non_provider.2 (lit "f") (lit "10") (lit "121") 10 121
      (by decide) (by decide) (by decide) (by decide) (by decide)⟩

/-- C2 (code bug): `SrcuriParser::parse` is not total — on
`srcuri://dev.azure.com/org/_git/repo?version=aé` it reaches the
`value[2..]` byte slice in `parse_azure` with a percent-decoded value whose
byte 2 falls inside a multi-byte character, and panics (`none` in the
model).  The second conjunct isolates the panicking slice itself. -/
theorem c2_parse_panics_on_azure_version :
    Srcuri.parse (lit "srcuri://dev.azure.com/org/_git/repo?version=aé") = none ∧
    SrcuriCore.sliceBytesFrom (lit "aé") 2 = none :=
  ⟨by decide, by decide⟩

/-- C3: a non-integer colon tail is stripped from the filename with no line
and no column — for a single non-integer tail, for a two-colon tail whose
would-be line is not an integer, and on the concrete URL
`srcuri://file:name.txt`. -/
theorem c3_non_integer_tail_stripped :
    (∀ before tail, ':' ∉ before → ':' ∉ tail → parseUsize tail = none →
        Srcuri.parse_path_with_location (before ++ ':' :: tail) = (before, none, none)) ∧
    (∀ b t1 t2, ':' ∉ t1 → ':' ∉ t2 → parseUsize t1 = none →
        Srcuri.parse_path_with_location (b ++ ':' :: (t1 ++ ':' :: t2)) = (b, none, none)) ∧
    Srcuri.parse (lit "srcuri://file:name.txt") =
      some (Except.ok (.PartialPath (lit "file") none none)) := by
  refine ⟨?_, ?_, by decide⟩
  · intro before tail hb ht hn
    exact ppwl_one_colon_junk hb ht hn
  · intro b t1 t2 h1 h2 hn
    exact ppwl_two_colon_junk_line h1 h2 hn

/-- Witness for C3: the tail `name.txt` is stripped from `file:name.txt`,
and `f:ab:7` loses its whole suffix because the would-be line `ab` is not an
integer. -/
theorem c3_witness :
    Srcuri.parse_path_with_location (lit "file" ++ ':' :: lit "name.txt") =
      (lit "file", none, none) ∧
    Srcuri.parse_path_with_location (lit "f" ++ ':' :: (lit "ab" ++ ':' :: lit "7")) =
      (lit "f", none, none) :=
  ⟨c3_non_integer_tail_stripped.1 (lit "file") (lit "name.txt")
      (by decide) (by decide) (by decide),
    c3_non_integer_tail_stripped.2.1 (lit "f") (lit "ab") (lit "7")
      (by decide) (by decide) (by decide)⟩

/-- C7: whenever `SrcuriParser::parse` succeeds with a `PartialPath` or
`FullPath` request, the URL carried no git-ref query parameter (`commit=`,
`sha=`, `branch=`, `tag=`); with such a parameter those path shapes always
fail instead. -/
theorem c7_git_ref_never_on_partial_or_full :
    ∀ link r, Srcuri.parse link = some (Except.ok r) →
      (r.isPartialPath = true ∨ r.isFullPath = true) →
      Srcuri.parse_git_ref_param (Srcuri.linkParts link).2.1 = none := by
  intro link r h hpf
  rcases parse_ok_cases h with hprov | hstd
  · cases r <;> simp_all [Srcuri.SrcuriRequest.isProviderPassthrough,
      Srcuri.SrcuriRequest.isPartialPath, Srcuri.SrcuriRequest.isFullPath]
  · rcases hg : Srcuri.parse_git_ref_param (Srcuri.linkParts link).2.1 with _ | g0
    · rfl
    · rw [hg] at hstd
      obtain ⟨ws, rel, line, col, rfl⟩ := parseStandard_some_gitRef hstd
      simp [Srcuri.SrcuriRequest.isPartialPath, Srcuri.SrcuriRequest.isFullPath] at hpf

/-- Witness for C7: `srcuri://file.rs` parses to a `PartialPath`, hence its
query holds no git-ref parameter. -/
theorem c7_witness :
    Srcuri.parse_git_ref_param (Srcuri.linkParts (lit "srcuri://file.rs")).2.1 = none :=
  c7_git_ref_never_on_partial_or_full (lit "srcuri://file.rs")
    (.PartialPath (lit "file.rs") none none) (by decide) (Or.inl (by decide))

/-- C10: when the first path segment contains both `.` and `:` (and the path
has at least three segments), the parser bypasses provider passthrough and
classifies the path through the ordinary location-suffix / workspace /
partial-path rules. -/
theorem c10_colon_first_segment_is_ordinary :
    ∀ link first,
      startsWithSeq (lit "srcuri://") (rustTrim link) = true →
      (rustTrim link).drop 9 ≠ [] →
      3 ≤ (Srcuri.segmentsOf (Srcuri.linkParts link).1).length →
      (Srcuri.segmentsOf (Srcuri.linkParts link).1).head? = some first →
      first.contains '.' = true → first.contains ':' = true →
      Srcuri.parse link =
        Srcuri.parseStandard (Srcuri.linkParts link).1
          (Srcuri.parse_git_ref_param (Srcuri.linkParts link).2.1)
          (Srcuri.parse_remote_param (Srcuri.linkParts link).2.1) := by
  intro link first h1 h2 hlen hh hd hc
  have hshape : Srcuri.isProviderShape (Srcuri.segmentsOf (Srcuri.linkParts link).1) = false := by
    unfold Srcuri.isProviderShape
    rw [hh]
    simp
    intro _ _
    simpa using hc
  simp only [Srcuri.parse, Srcuri.parseBody, h1, if_true]
  rw [if_neg h2]
  simp only [hshape, Bool.false_eq_true, if_false]

/-- Witness for C10: `srcuri://a.b:c/d/e` has first segment `a.b:c` with
both a dot and a colon, three segments, and is classified by the ordinary
rules. -/
theorem c10_witness :
    Srcuri.parse (lit "srcuri://a.b:c/d/e") =
      Srcuri.parseStandard (Srcuri.linkParts (lit "srcuri://a.b:c/d/e")).1
        (Srcuri.parse_git_ref_param (Srcuri.linkParts (lit "srcuri://a.b:c/d/e")).2.1)
        (Srcuri.parse_remote_param (Srcuri.linkParts (lit "srcuri://a.b:c/d/e")).2.1) :=
  c10_colon_first_segment_is_ordinary (lit "srcuri://a.b:c/d/e") (lit "a.b:c")
    (by decide) (by decide) (by decide) (by decide) (by decide) (by decide)

/-! ### Claim C4: guarded checkout -/

/-- C4: `checkout_revision` on a git repository refuses — with an error and
without executing `git checkout` — whenever an in-progress-operation
sentinel is present or the working tree is not clean; it executes
`git checkout <rev>` exactly when unblocked and clean; and on a dirty tree
the error carries the modified-file count. -/
theorem c4_checkout_guarded :
    ∀ s rev, s.is_git_repo = true →
    ((GitOps.anySentinel s = true ∨ s.status_lines ≠ []) →
        (GitOps.checkout_revision s rev).2 = false ∧
        ∃ e, (GitOps.checkout_revision s rev).1 = .error e) ∧
    (GitOps.anySentinel s = false → s.status_cmd_success = true → s.status_lines = [] →
        (GitOps.checkout_revision s rev).2 = true) ∧
    (GitOps.anySentinel s = false → s.status_cmd_success = true → s.status_lines ≠ [] →
        (GitOps.checkout_revision s rev).1 =
          .error (.dirty ((s.status_lines.filter
            (fun l => ¬ startsWithSeq (lit "??") l)).length))) := by
  intro s rev hrepo
  obtain ⟨repo, mh, rh, rm, ra, cp, bl, sc, lines, cs, cerr⟩ := s
  simp only at hrepo
  subst hrepo
  refine ⟨?_, ?_, ?_⟩
  · rintro (hb | hd)
    · cases mh <;> cases rh <;> cases rm <;> cases ra <;> cases cp <;> cases bl <;>
        simp_all [GitOps.checkout_revision, GitOps.check_git_operation_state,
          GitOps.get_working_tree_status, GitOps.anySentinel]
    · cases mh <;> cases rh <;> cases rm <;> cases ra <;> cases cp <;> cases bl <;>
        cases sc <;>
        simp_all [GitOps.checkout_revision, GitOps.check_git_operation_state,
          GitOps.get_working_tree_status, GitOps.anySentinel]
  · intro hb hsc hcl
    cases mh <;> cases rh <;> cases rm <;> cases ra <;> cases cp <;> cases bl <;>
      cases cs <;>
      simp_all [GitOps.checkout_revision, GitOps.check_git_operation_state,
        GitOps.get_working_tree_status, GitOps.anySentinel] <;>
      (try (split <;> rfl))
  · intro hb hsc hd
    cases mh <;> cases rh <;> cases rm <;> cases ra <;> cases cp <;> cases bl <;>
      simp_all [GitOps.checkout_revision, GitOps.check_git_operation_state,
        GitOps.get_working_tree_status, GitOps.anySentinel]

/-- Witness for C4: a merge-blocked state refuses without running checkout,
a clean state runs checkout, and a dirty state reports its one modified
line. -/
theorem c4_witness :
    ((GitOps.checkout_revision c4BlockedState (lit "main")).2 = false ∧
      ∃ e, (GitOps.checkout_revision c4BlockedState (lit "main")).1 = .error e) ∧
    (GitOps.checkout_revision c4CleanState (lit "main")).2 = true ∧
    (GitOps.checkout_revision c4DirtyState (lit "main")).1 =
      Except.error (.dirty ((c4DirtyState.status_lines.filter
        (fun l => ¬ startsWithSeq (lit "??") l)).length)) :=
  ⟨(c4_checkout_guarded c4BlockedState (lit "main") (by decide)).1 (Or.inl (by decide)),
    (c4_checkout_guarded c4CleanState (lit "main") (by decide)).2.1
      (by decide) (by decide) (by decide),
    (c4_checkout_guarded c4DirtyState (lit "main") (by decide)).2.2
      (by decide) (by decide) (by decide)⟩

/-! ### Claim C5: workspace-path handling -/

/-- C5, counterexample: with workspace `ws` configured at `/w` but file `f`
missing there, and a `remote` parameter present, `handle_workspace_path`
returns `ShowCloneDialog` — whereas the claim says every case other than a
missing workspace fails.  The second conjunct shows the resolution error was
`pathNotFound` (configured workspace, missing file), not a missing
workspace. -/
theorem c5_counterexample :
    Handler.handle_workspace_path c5Env (lit "ws") (lit "f") none none
        (some (lit "github.com/u/r")) =
      Except.ok (.ShowCloneDialog (lit "ws") (lit "/base/ws") (lit "github.com/u/r")
        (lit "f") none none none) ∧
    Matcher.find_workspace_path c5Env.fs c5Env.workspaces (lit "ws") (lit "f") =
      Except.error (.pathNotFound (lit "ws") (lit "f")) :=
  ⟨by decide, by decide⟩

/-- C5 (amended): a resolved workspace path is dispatched (returning
`Opened` when dispatch succeeds); ANY resolution failure — a missing
workspace or a missing file inside a configured workspace — with a `remote`
parameter present yields `ShowCloneDialog` with `git_ref = None` and clone
path `<default_workspaces_folder>/<workspace>`; a resolution failure without
`remote` propagates the error. -/
theorem c5_workspace_path_dispatch :
    ∀ (env : Handler.HandlerEnv) (ws path : List Char) (line col : Option Nat)
      (remote : Option (List Char)),
    (∀ fp, Matcher.find_workspace_path env.fs env.workspaces ws path = .ok fp →
        env.dispatch_ok = true →
        Handler.handle_workspace_path env ws path line col remote = .ok .Opened) ∧
    (∀ e r, Matcher.find_workspace_path env.fs env.workspaces ws path = .error e →
        remote = some r →
        Handler.handle_workspace_path env ws path line col remote =
          .ok (.ShowCloneDialog ws
            (Matcher.pathJoin (Handler.tildeExpand env.home_dir env.default_workspaces_folder) ws)
            r path line col none)) ∧
    (∀ e, Matcher.find_workspace_path env.fs env.workspaces ws path = .error e →
        remote = none →
        Handler.handle_workspace_path env ws path line col remote = .error (.find e)) := by
  intro env ws path line col remote
  refine ⟨?_, ?_, ?_⟩
  · intro fp hf hd
    simp [Handler.handle_workspace_path, hf, hd]
  · intro e r hf hr
    subst hr
    simp [Handler.handle_workspace_path, hf]
  · intro e hf hr
    subst hr
    simp [Handler.handle_workspace_path, hf]

/-- Witness for C5: in `c5OkEnv` the file `/w/f` exists, resolution
succeeds, and the handler returns `Opened`. -/
theorem c5_witness :
    Handler.handle_workspace_path c5OkEnv (lit "ws") (lit "f") none none none =
      Except.ok .Opened :=
  (c5_workspace_path_dispatch c5OkEnv (lit "ws") (lit "f") none none none).1
    (lit "/w/f") (by decide) (by decide)

/-! ### Claim C8: path sanitizer and tildes -/

/-- C8, counterexample: `sanitize "~/projects"` — a path whose sole `~` is
the leading home-expansion marker — fails with the suspicious-pattern
error, because the `SUSPICIOUS_PATTERNS` regex contains a bare `~`
alternative that matches anywhere. -/
theorem c8_counterexample :
    PathValidator.sanitize (lit "~/projects") =
      Except.error PathValidator.SanitizeErr.suspicious :=
  by decide

/-- C8 (amended): the sanitizer rejects ANY path containing a tilde
(leading home-expansion marker included) with the suspicious-pattern error,
provided the path is within the 4096-byte length check that precedes it.
Tilde expansion in `normalize` is therefore unreachable through
`validate_any` for tilde paths. -/
theorem c8_tilde_always_suspicious :
    ∀ p, '~' ∈ p → byteLen p ≤ 4096 →
      PathValidator.sanitize p = Except.error PathValidator.SanitizeErr.suspicious := by
  intro p hm hlen
  have hne : p ≠ [] := by rintro rfl; simp at hm
  have hsus : PathValidator.containsSuspicious p = true := by
    unfold PathValidator.containsSuspicious
    simp
    exact Or.inr (Or.inr (Or.inl hm))
  unfold PathValidator.sanitize
  rw [if_neg hne, if_neg (by omega), if_pos hsus]

/-- Witness for C8: the two-byte path `~x` contains a tilde and is rejected
as suspicious. -/
theorem c8_witness :
    PathValidator.sanitize (lit "~x") =
      Except.error PathValidator.SanitizeErr.suspicious :=
  c8_tilde_always_suspicious (lit "~x") (by decide) (by decide)

/-! ### Claim C9: discovery sync removals -/

/-- C9, counterexample: the auto-discovered workspace row at `/f/w` is
removed by `sync` even though its directory still exists on disk — the scan
excludes it because `/f/w/.git` is gone, and removal is keyed on the scan,
not on directory existence. -/
theorem c9_counterexample :
    c9Fs.pathExists (lit "/f/w") = true ∧ c9Fs.isDir (lit "/f/w") = true ∧
    c9Row.auto_discovered = true ∧ c9Row ∈ c9Settings.workspaces ∧
    (Discovery.sync c9Fs c9Settings).2.workspaces = [] ∧
    (Discovery.sync c9Fs c9Settings).1.removed = [lit "w"] :=
  ⟨by decide, by decide, by decide, by decide, by decide, by decide⟩

/-- C9 (amended): `sync` never removes a manually configured workspace; an
auto-discovered workspace is retained whenever its `normalized_path` is
among the repos found by the current scan of the default workspaces folder
(an immediate child directory, not dot-prefixed, containing a `.git`
entry); and with no valid workspaces folder the settings are unchanged. -/
theorem c9_sync_removal_scope :
    ∀ (fs : Discovery.DiscoveryFs) (settings : Discovery.Settings),
    (∀ w, w ∈ settings.workspaces → w.auto_discovered = false →
        w ∈ (Discovery.sync fs settings).2.workspaces) ∧
    (∀ w folder, w ∈ settings.workspaces →
        Discovery.get_normalized_workspaces_folder fs settings.default_workspaces_folder =
          some folder →
        (∀ p, w.normalized_path = some p → p ∈ Discovery.scan_folder fs folder) →
        w ∈ (Discovery.sync fs settings).2.workspaces) ∧
    (Discovery.get_normalized_workspaces_folder fs settings.default_workspaces_folder = none →
        (Discovery.sync fs settings).2 = settings) := by
  intro fs settings
  refine ⟨?_, ?_, ?_⟩
  · intro w hw hauto
    rcases hfold : Discovery.get_normalized_workspaces_folder fs
        settings.default_workspaces_folder with _ | folder
    · simp [Discovery.sync, hfold]
      exact hw
    · simp only [Discovery.sync, hfold]
      refine List.mem_filter.mpr ⟨List.mem_append_left _ hw, ?_⟩
      simp [Discovery.removePred, hauto]
  · intro w folder hw hfold hscan
    simp only [Discovery.sync, hfold]
    refine List.mem_filter.mpr ⟨List.mem_append_left _ hw, ?_⟩
    rcases hnp : w.normalized_path with _ | p
    · simp [Discovery.removePred, hnp]
    · simp [Discovery.removePred, hnp]
      exact Or.inr (hscan p hnp)
  · intro hfold
    simp [Discovery.sync, hfold]

/-- Witness for C9: with `/f/w/.git` present, the scan rediscovers `/f/w`
and the auto-discovered row survives `sync`. -/
theorem c9_witness :
    c9Row ∈ (Discovery.sync c9GitFs c9Settings).2.workspaces :=
  (c9_sync_removal_scope c9GitFs c9Settings).2.1 c9Row (lit "/f")
    (by decide) (by decide)
    (fun p hp => by
      have hp2 : (some (lit "/f/w") : Option (List Char)) = some p := hp
      cases hp2
      decide)

/-! ### Claim C6: MRU sorting -/

theorem cmpNat_gt_iff {a b : Nat} : Matcher.cmpNat a b = .gt ↔ b < a := by
  unfold Matcher.cmpNat
  split_ifs <;> simp_all
  omega

theorem cmpNat_eq_iff {a b : Nat} : Matcher.cmpNat a b = .eq ↔ a = b := by
  unfold Matcher.cmpNat
  split_ifs <;> simp_all <;> omega

theorem cmpNat_lt_iff {a b : Nat} : Matcher.cmpNat a b = .lt ↔ a < b := by
  unfold Matcher.cmpNat
  split_ifs <;> simp_all

theorem cmpCharList_gt_asymm : ∀ {a b : List Char},
    Matcher.cmpCharList a b = .gt → Matcher.cmpCharList b a ≠ .gt := by
  intro a
  induction a with
  | nil => intro b h; cases b <;> simp [Matcher.cmpCharList] at h
  | cons x xs ih =>
    intro b h
    cases b with
    | nil => simp [Matcher.cmpCharList]
    | cons y ys =>
      simp only [Matcher.cmpCharList] at h ⊢
      rcases hxy : Matcher.cmpNat x.toNat y.toNat with _ | _ | _ <;> rw [hxy] at h
      · simp at h
      · have hyx : Matcher.cmpNat y.toNat x.toNat = .eq := by
          rw [cmpNat_eq_iff] at hxy ⊢
          omega
        rw [hyx]
        exact ih h
      · have hyx : Matcher.cmpNat y.toNat x.toNat = .lt := by
          rw [cmpNat_gt_iff] at hxy
          rw [cmpNat_lt_iff]
          omega
        rw [hyx]
        simp

theorem cmpCharList_le_trans : ∀ {a b c : List Char},
    Matcher.cmpCharList a b ≠ .gt → Matcher.cmpCharList b c ≠ .gt →
    Matcher.cmpCharList a c ≠ .gt := by
  intro a
  induction a with
  | nil =>
    intro b c _ _
    cases c <;> simp [Matcher.cmpCharList]
  | cons x xs ih =>
    intro b c hab hbc
    cases b with
    | nil => simp [Matcher.cmpCharList] at hab
    | cons y ys =>
      cases c with
      | nil => simp [Matcher.cmpCharList] at hbc
      | cons z zs =>
        simp only [Matcher.cmpCharList] at hab hbc ⊢
        rcases hxy : Matcher.cmpNat x.toNat y.toNat with _ | _ | _ <;> rw [hxy] at hab
        · rcases hyz : Matcher.cmpNat y.toNat z.toNat with _ | _ | _ <;> rw [hyz] at hbc
          · have hxz : Matcher.cmpNat x.toNat z.toNat = .lt := by
              rw [cmpNat_lt_iff] at hxy hyz ⊢; omega
            rw [hxz]; simp
          · have hxz : Matcher.cmpNat x.toNat z.toNat = .lt := by
              rw [cmpNat_lt_iff] at hxy ⊢
              rw [cmpNat_eq_iff] at hyz
              omega
            rw [hxz]; simp
          · simp at hbc
        · rcases hyz : Matcher.cmpNat y.toNat z.toNat with _ | _ | _ <;> rw [hyz] at hbc
          · have hxz : Matcher.cmpNat x.toNat z.toNat = .lt := by
              rw [cmpNat_eq_iff] at hxy
              rw [cmpNat_lt_iff] at hyz ⊢
              omega
            rw [hxz]; simp
          · have hxz : Matcher.cmpNat x.toNat z.toNat = .eq := by
              rw [cmpNat_eq_iff] at hxy hyz ⊢; omega
            rw [hxz]
            exact ih hab hbc
          · simp at hbc
        · simp at hab

theorem matchLe_eq_true_iff {a b : Matcher.WorkspaceMatch} :
    Matcher.matchLe a b = true ↔ Matcher.matchCmp a b ≠ .gt := by
  unfold Matcher.matchLe
  rcases h : Matcher.matchCmp a b with _ | _ | _ <;> simp [h]

theorem matchCmp_le_trans {a b c : Matcher.WorkspaceMatch}
    (hab : Matcher.matchCmp a b ≠ .gt) (hbc : Matcher.matchCmp b c ≠ .gt) :
    Matcher.matchCmp a c ≠ .gt := by
  rcases ha : a.last_active with _ | ta <;> rcases hb : b.last_active with _ | tb <;>
    rcases hc : c.last_active with _ | tc <;>
    simp only [Matcher.matchCmp, ha, hb, hc] at hab hbc ⊢
  · exact cmpCharList_le_trans hab hbc
  · exact absurd rfl hbc
  · exact absurd rfl hab
  · exact absurd rfl hab
  · simp
  · exact absurd rfl hbc
  · simp
  · rw [Ne, cmpNat_gt_iff] at hab hbc ⊢
    omega

theorem matchCmp_total (a b : Matcher.WorkspaceMatch) :
    Matcher.matchCmp a b ≠ .gt ∨ Matcher.matchCmp b a ≠ .gt := by
  rcases ha : a.last_active with _ | ta <;> rcases hb : b.last_active with _ | tb <;>
    simp only [Matcher.matchCmp, ha, hb]
  · by_cases h : Matcher.cmpCharList a.workspace_name b.workspace_name = .gt
    · exact Or.inr (cmpCharList_gt_asymm h)
    · exact Or.inl h
  · right; simp
  · left; simp
  · rw [Ne, Ne, cmpNat_gt_iff, cmpNat_gt_iff]
    omega

theorem matchLe_total : ∀ a b : Matcher.WorkspaceMatch,
    (Matcher.matchLe a b || Matcher.matchLe b a) = true := by
  intro a b
  rcases matchCmp_total a b with h | h
  · rw [Bool.or_eq_true]
    exact Or.inl (matchLe_eq_true_iff.mpr h)
  · rw [Bool.or_eq_true]
    exact Or.inr (matchLe_eq_true_iff.mpr h)

theorem matchLe_trans : ∀ a b c : Matcher.WorkspaceMatch,
    Matcher.matchLe a b = true → Matcher.matchLe b c = true →
    Matcher.matchLe a c = true := by
  intro a b c hab hbc
  exact matchLe_eq_true_iff.mpr
    (matchCmp_le_trans (matchLe_eq_true_iff.mp hab) (matchLe_eq_true_iff.mp hbc))

theorem matchLe_recencyOrdered {a b : Matcher.WorkspaceMatch}
    (h : Matcher.matchLe a b = true) : recencyOrdered a b := by
  have hcmp := matchLe_eq_true_iff.mp h
  refine ⟨?_, ?_, ?_⟩
  · intro tb htb
    rcases ha : a.last_active with _ | ta
    · exfalso; apply hcmp; simp [Matcher.matchCmp, ha, htb]
    · refine ⟨ta, rfl, ?_⟩
      have hne : Matcher.cmpNat tb ta ≠ .gt := by
        intro hgt; apply hcmp; simp [Matcher.matchCmp, ha, htb, hgt]
      rw [Ne, cmpNat_gt_iff] at hne
      omega
  · intro ha
    rcases hb : b.last_active with _ | tb
    · rfl
    · exfalso; apply hcmp; simp [Matcher.matchCmp, ha, hb]
  · intro ha hb hgt
    apply hcmp
    simp [Matcher.matchCmp, ha, hb, hgt]

/-- C6: after `sort_by_recent_usage` the list is ordered by descending MRU
recency — for all positions i < j, if the later entry has a `last_active`
the earlier has one at least as recent; entries without MRU data all come
after those with it; and among themselves they are ordered by workspace
name (never byte-wise greater). -/
theorem c6_sort_by_recent_ordered :
    ∀ (tracker : List Char → Option Nat) (ms : List Matcher.WorkspaceMatch)
      (i j : Fin (Matcher.sort_by_recent_usage tracker ms).length), i < j →
      recencyOrdered ((Matcher.sort_by_recent_usage tracker ms).get i)
        ((Matcher.sort_by_recent_usage tracker ms).get j) := by
  intro tracker ms i j hij
  have hp : List.Pairwise (fun a b => Matcher.matchLe a b = true)
      (Matcher.sort_by_recent_usage tracker ms) := by
    unfold Matcher.sort_by_recent_usage
    exact List.sorted_mergeSort matchLe_trans matchLe_total _
  exact matchLe_recencyOrdered (List.pairwise_iff_get.mp hp i j hij)

/-- Witness for C6: sorting the two concrete matches (with only `/a` known
to the tracker) yields a recency-ordered adjacent pair. -/
theorem c6_witness :
    recencyOrdered
      ((Matcher.sort_by_recent_usage c6Tracker c6Matches).get
        ⟨0, by simp [Matcher.sort_by_recent_usage, List.length_mergeSort, c6Matches]⟩)
      ((Matcher.sort_by_recent_usage c6Tracker c6Matches).get
        ⟨1, by simp [Matcher.sort_by_recent_usage, List.length_mergeSort, c6Matches]⟩) :=
  c6_sort_by_recent_ordered c6Tracker c6Matches _ _ (by simp [Fin.mk_lt_mk])
